import Mathlib

/-!
The package gorapid: token lifecycle of the RAPID API client (`src/rapid.go`).

A shallow embedding of `src/rapid.go`.

* Go strings are Lean `String`s.
* Go `int` and `time.Duration` are 64-bit: values are `Int`, and the one
  arithmetic expression of the source that can overflow,
  `time.Duration(expiresIn) * time.Second`, is reduced with `wrapInt64`.
* A `time.Time` is an `Int`, the instant in nanoseconds; `Time.Add` is integer
  addition and `Time.Before` is `<`.
* The outside world is a parameter: `Env` holds the clock, the HTTP round
  trip, the URL parser, the JSON codec and the body reader.  The world state
  `W`, the response body `B` and the request payload `J` are arbitrary types.
  Every request handed to the transport is appended to `World.calls`.
* A method with a pointer receiver returns the client it leaves behind.
-/

namespace gorapid

/-! ## Library functions used by the source -/

/-- Two's-complement reduction of an integer to the `int64` range. -/
def wrapInt64 (x : Int) : Int := (x + 2 ^ 63) % 2 ^ 64 - 2 ^ 63

/-- The constant `time.Second`, in nanoseconds. -/
def Second : Int := 1000000000

/-- The largest `int64`. -/
def maxInt64 : Int := 2 ^ 63 - 1

namespace strings

/-- Go `strings.TrimLeft(s, cutset)`: drops every leading character that occurs in `cutset`. -/
def TrimLeft (s cutset : String) : String :=
  ⟨s.data.dropWhile (fun ch => cutset.data.contains ch)⟩

/-- Go `strings.TrimRight(s, cutset)`: drops every trailing character that occurs in `cutset`. -/
def TrimRight (s cutset : String) : String :=
  ⟨s.data.rdropWhile (fun ch => cutset.data.contains ch)⟩

end strings

/-- UTF-8 encoding of one character, as a list of byte values. -/
def utf8Bytes (ch : Char) : List Nat :=
  let v := ch.toNat
  if v < 0x80 then [v]
  else if v < 0x800 then [0xC0 + v / 64, 0x80 + v % 64]
  else if v < 0x10000 then [0xE0 + v / 4096, 0x80 + v / 64 % 64, 0x80 + v % 64]
  else [0xF0 + v / 262144, 0x80 + v / 4096 % 64, 0x80 + v / 64 % 64, 0x80 + v % 64]

/-- The bytes of a Go string. -/
def bytesOf (s : String) : List Nat := s.data.flatMap utf8Bytes

namespace base64

/-- The alphabet of `base64.StdEncoding`. -/
def alphabet : List Char :=
  "ABCDEFGHIJKLMNOPQRSTUVWXYZabcdefghijklmnopqrstuvwxyz0123456789+/".data

/-- The character of a six-bit value. -/
def digit (n : Nat) : Char := alphabet.getD n 'A'

/-- Base64 with padding over a list of bytes. -/
def encodeBytes : List Nat → List Char
  | [] => []
  | [a] => [digit (a / 4), digit (a % 4 * 16), '=', '=']
  | [a, b] => [digit (a / 4), digit (a % 4 * 16 + b / 16), digit (b % 16 * 4), '=']
  | a :: b :: c :: rest =>
    digit (a / 4) :: digit (a % 4 * 16 + b / 16) :: digit (b % 16 * 4 + c / 64) ::
      digit (c % 64) :: encodeBytes rest

/-- Go `base64.StdEncoding.EncodeToString([]byte(s))`. -/
def EncodeToString (s : String) : String := ⟨encodeBytes (bytesOf s)⟩

end base64

namespace url

/-- Upper-case hexadecimal digit, as in `net/url`. -/
def upperhex (n : Nat) : Char := "0123456789ABCDEF".data.getD n '0'

/-- Bytes that `QueryEscape` leaves alone: letters, digits and `-`, `_`, `.`, `~`. -/
def unreserved (b : Nat) : Bool :=
  (97 ≤ b && b ≤ 122) || (65 ≤ b && b ≤ 90) || (48 ≤ b && b ≤ 57) ||
    b == 45 || b == 95 || b == 46 || b == 126

/-- One byte of `QueryEscape`: kept, turned into `+` (space), or percent-encoded. -/
def escapeByte (b : Nat) : List Char :=
  if unreserved b then [Char.ofNat b]
  else if b == 32 then ['+']
  else ['%', upperhex (b / 16), upperhex (b % 16)]

/-- Go `url.QueryEscape`. -/
def QueryEscape (s : String) : String := ⟨(bytesOf s).flatMap escapeByte⟩

/-- Go `url.Values`, a map from key to list of values, as its list of entries. -/
abbrev Values := List (String × List String)

/-- Go string comparison `a < b` on the characters of the two strings (the byte order of
UTF-8 is the order of the code points). -/
def ltChars : List Char → List Char → Bool
  | _, [] => false
  | [], _ :: _ => true
  | a :: as, b :: bs => a.toNat < b.toNat || (a.toNat == b.toNat && ltChars as bs)

/-- Insertion of a key into a sorted list of keys. -/
def insertKey (k : String) : List String → List String
  | [] => [k]
  | x :: xs => if ltChars k.data x.data then k :: x :: xs else x :: insertKey k xs

/-- Sorted keys, as `slices.Sort(keys)` leaves them. -/
def sortKeys : List String → List String
  | [] => []
  | k :: ks => insertKey k (sortKeys ks)

/-- One `key=value` pair written to the buffer of `Values.Encode`, after `&` when the
buffer already holds something. -/
def writePair (buf keyEscaped v : String) : String :=
  (if buf.length > 0 then buf ++ "&" else buf) ++ keyEscaped ++ "=" ++ QueryEscape v

/-- Go `url.Values.Encode`: `key=value` pairs, escaped, sorted by key, joined by `&`. -/
def Values.Encode (v : Values) : String :=
  if v.length = 0 then ""
  else
    (sortKeys (v.map Prod.fst)).foldl
      (fun buf k =>
        ((v.lookup k).getD []).foldl (fun buf x => writePair buf (QueryEscape k) x) buf)
      ""

end url

namespace http

/-- The part of Go `http.Request` the client fills in. -/
structure Request where
  Method : String
  URL : String
  Header : List (String × String)
  Body : String
deriving DecidableEq, Repr

/-- Go `http.Response`: the status code and the body, still unread. -/
structure Response (B : Type) where
  StatusCode : Int
  Body : B

/-- Go `Header.Set`: replaces the value held for the key. -/
def Request.SetHeader (r : Request) (key value : String) : Request :=
  { r with Header := r.Header.filter (fun kv => kv.1 != key) ++ [(key, value)] }

/-- Go `Header.Get`. -/
def Request.GetHeader (r : Request) (key : String) : Option String :=
  r.Header.lookup key

/-- Token characters of RFC 7230, the ones a method may consist of. -/
def isTokenChar (ch : Char) : Bool :=
  ch.isAlphanum || "!#$%&*+-.^_|~".data.contains ch || ch == Char.ofNat 39 || ch == Char.ofNat 96

/-- Go `validMethod`: non-empty and made of token characters only. -/
def validMethod (method : String) : Bool :=
  method.length > 0 && method.data.all isTokenChar

/-- Go `http.NewRequest`: an empty method means GET, the method must be valid and the
URL must parse (`parse` returns the parser's error, if any). -/
def NewRequest (parse : String → Option String) (method url body : String) :
    Except String Request :=
  let method := if method = "" then "GET" else method
  if !validMethod method then .error ("net/http: invalid method " ++ method.quote)
  else
    match parse url with
    | some err => .error err
    | none => .ok { Method := method, URL := url, Header := [], Body := body }

end http

/-! ## The world the client runs in -/

/-- The collaborators of the client: clock, HTTP transport, URL parser, JSON codec and
body reader.  `W` is the state of the outside world. -/
structure Env (W B J : Type) where
  /-- The reading of `time.Now()`. -/
  Now : W → Int
  /-- One round trip of `HTTPClient.Do`: a response or a transport error, and the world after. -/
  Do : W → http.Request → Except String (http.Response B) × W
  /-- The error of `url.Parse`, if any. -/
  Parse : String → Option String
  /-- The outcome of `json.NewDecoder(body).Decode(&token)`: the four tagged fields and `ExpireTime`. -/
  Decode : B → Except String (String × Int × String × String × Int)
  /-- The outcome of `io.ReadAll`. -/
  ReadAll : B → Except String String
  /-- The outcome of `json.Marshal`. -/
  Marshal : J → Except String String

/-- The world together with the record of every request given to the transport. -/
structure World (W : Type) where
  net : W
  calls : List http.Request

/-- The call `c.HTTPClient.Do(req)`: the request is recorded and the transport answers. -/
def HTTPClient.Do {W B J : Type} (env : Env W B J) (w : World W) (req : http.Request) :
    Except String (http.Response B) × World W :=
  ((env.Do w.net req).1, { net := (env.Do w.net req).2, calls := w.calls ++ [req] })

/-! ## Token -/

/-- Go `Token`: a RAPID API authentication token. -/
structure Token where
  Value : String
  ExpiresIn : Int
  TokenType : String
  RefreshToken : String
  ExpireTime : Int
deriving DecidableEq, Repr

/-- Go `NewToken`; `now` is the reading of `time.Now()`. -/
def NewToken (now : Int) (value : String) (expiresIn : Int) (tokenType : String)
    (refreshToken : String) : Token :=
  { Value := value
    ExpiresIn := expiresIn
    TokenType := tokenType
    RefreshToken := refreshToken
    ExpireTime := now + wrapInt64 (expiresIn * Second) }

/-- Go `Token.GetAuthorizationHeader`: `fmt.Sprintf("%s %s", t.TokenType, t.Value)`. -/
def Token.GetAuthorizationHeader (t : Token) : String :=
  t.TokenType ++ " " ++ t.Value

/-- Go `Token.IsValid`; `now` is the reading of `time.Now()`. -/
def Token.IsValid (t : Token) (now : Int) : Bool :=
  decide (now < t.ExpireTime)

/-! ## Errors -/

/-- The errors the package returns, one constructor per `fmt.Errorf` of the source, and
the nil dereference `c.Token.GetAuthorizationHeader()` would be on a client without token. -/
inductive Error where
  | configuration
  | creatingRequest (cause : String)
  | sendingRequest (cause : String)
  | unexpectedStatus (code : Int)
  | decodingResponse (cause : String)
  | generatingToken (cause : Error)
  | marshalingBody (cause : String)
  | readingBody (cause : String)
  | nilToken
deriving DecidableEq, Repr

/-- The message of an error, as `err.Error()` prints it. -/
def Error.message : Error → String
  | .configuration =>
    "RAPID_BASE_URL, RAPID_KEY, and RAPID_SECRET environment variables must be set"
  | .creatingRequest cause => "error creating request: " ++ cause
  | .sendingRequest cause => "error sending request: " ++ cause
  | .unexpectedStatus code => "unexpected status code: " ++ toString code
  | .decodingResponse cause => "error decoding response: " ++ cause
  | .generatingToken cause => "error generating token: " ++ cause.message
  | .marshalingBody cause => "error marshaling request body: " ++ cause
  | .readingBody cause => "error reading response body: " ++ cause
  | .nilToken => "runtime error: invalid memory address or nil pointer dereference"

/-! ## RapidClient -/

/-- Go `http.Client`, of which the source sets the timeout only. -/
structure HTTPClient where
  Timeout : Int
deriving DecidableEq, Repr

/-- Go `RapidClient`. -/
structure RapidClient where
  BaseURL : String
  Key : String
  Secret : String
  UserWebToken : String
  HTTPClient : HTTPClient
  Token : Option Token
deriving DecidableEq, Repr

/-- Go `NewRapidClient`, as a function of the values `os.Getenv` returns for
`RAPID_BASE_URL`, `RAPID_KEY`, `RAPID_SECRET` and `RAPID_USER_WEB_TOKEN`. -/
def NewRapidClient (baseURL key secret userWebToken : String) : Except Error RapidClient :=
  if baseURL = "" ∨ key = "" ∨ secret = "" then .error .configuration
  else
    .ok
      { BaseURL := strings.TrimRight baseURL "/"
        Key := key
        Secret := secret
        UserWebToken := userWebToken
        HTTPClient := { Timeout := 600 * Second }
        Token := none }

/-- Go `RapidClient.generateParameters`. -/
def RapidClient.generateParameters (c : RapidClient) : url.Values :=
  if c.UserWebToken ≠ "" then
    [("grant_type", ["urn:ietf:params:oauth:grant-type:jwt-bearer"]),
     ("assertion", [c.UserWebToken])]
  else
    [("grant_type", ["client_credentials"]),
     ("scope", ["am_application_scope,default"])]

variable {W B J : Type}

/-- Go `RapidClient.GenerateToken`: returns the error (if any), the client and the world
it leaves behind. -/
def RapidClient.GenerateToken (env : Env W B J) (c : RapidClient) (w : World W) :
    Option Error × RapidClient × World W :=
  let params := c.generateParameters
  let tokenURL := c.BaseURL ++ "/token"
  match http.NewRequest env.Parse "POST" tokenURL params.Encode with
  | .error err => (some (.creatingRequest err), c, w)
  | .ok req =>
    let req := req.SetHeader "Content-Type" "application/x-www-form-urlencoded"
    let req := req.SetHeader "Authorization"
      ("Basic " ++ base64.EncodeToString (c.Key ++ ":" ++ c.Secret))
    match HTTPClient.Do env w req with
    | (.error err, w1) => (some (.sendingRequest err), c, w1)
    | (.ok resp, w1) =>
      if resp.StatusCode ≠ 200 then (some (.unexpectedStatus resp.StatusCode), c, w1)
      else
        match env.Decode resp.Body with
        | .error err => (some (.decodingResponse err), c, w1)
        | .ok (value, expiresIn, tokenType, refreshToken, _) =>
          let token : gorapid.Token :=
            { Value := value
              ExpiresIn := expiresIn
              TokenType := tokenType
              RefreshToken := refreshToken
              ExpireTime := env.Now w1.net + wrapInt64 (expiresIn * Second) }
          (none, { c with Token := some token }, w1)

/-- The branch of Go `RapidClient.RefreshToken` taken when the client holds a token with a
refresh credential (lines 130-163 of the source): the refresh grant. -/
def RapidClient.refreshGrant (env : Env W B J) (c : RapidClient) (w : World W)
    (held : gorapid.Token) : Option Error × RapidClient × World W :=
  let params : url.Values :=
    [("grant_type", ["refresh_token"]),
     ("refresh_token", [held.RefreshToken])]
  let tokenURL := c.BaseURL ++ "/token"
  match http.NewRequest env.Parse "POST" tokenURL params.Encode with
  | .error err => (some (.creatingRequest err), c, w)
  | .ok req =>
    let req := req.SetHeader "Content-Type" "application/x-www-form-urlencoded"
    let req := req.SetHeader "Authorization"
      ("Basic " ++ base64.EncodeToString (c.Key ++ ":" ++ c.Secret))
    match HTTPClient.Do env w req with
    | (.error err, w1) => (some (.sendingRequest err), c, w1)
    | (.ok resp, w1) =>
      if resp.StatusCode ≠ 200 then (some (.unexpectedStatus resp.StatusCode), c, w1)
      else
        match env.Decode resp.Body with
        | .error err => (some (.decodingResponse err), c, w1)
        | .ok (value, expiresIn, tokenType, refreshToken, _) =>
          let token : gorapid.Token :=
            { Value := value
              ExpiresIn := expiresIn
              TokenType := tokenType
              RefreshToken := refreshToken
              ExpireTime := env.Now w1.net + wrapInt64 (expiresIn * Second) }
          (none, { c with Token := some token }, w1)

/-- Go `RapidClient.RefreshToken`. -/
def RapidClient.RefreshToken (env : Env W B J) (c : RapidClient) (w : World W) :
    Option Error × RapidClient × World W :=
  match c.Token with
  | none => c.GenerateToken env w
  | some held =>
    if held.RefreshToken = "" then c.GenerateToken env w
    else c.refreshGrant env w held

/-- The URL `Request` builds (lines 191-194 of the source). -/
def RapidClient.fullURL (c : RapidClient) (urlPath : String) (params : url.Values) : String :=
  let fullURL := c.BaseURL ++ "/" ++ strings.TrimLeft urlPath "/"
  if params.length > 0 then fullURL ++ "?" ++ params.Encode else fullURL

/-- The request body of `Request` (lines 196-203 of the source): empty for a nil body,
else the JSON encoding, which can fail. -/
def marshalBody (env : Env W B J) (body : Option J) : Except String String :=
  match body with
  | none => .ok ""
  | some b => env.Marshal b

/-- Go `RapidClient.Request` from line 191 on: the resource call of a client whose token
has been checked. -/
def RapidClient.resourceCall (env : Env W B J) (c : RapidClient) (w : World W)
    (method urlPath : String) (body : Option J) (params : url.Values) :
    Except Error String × RapidClient × World W :=
  let fullURL := c.fullURL urlPath params
  match marshalBody env body with
  | .error err => (.error (.marshalingBody err), c, w)
  | .ok reqBody =>
    match http.NewRequest env.Parse method fullURL reqBody with
    | .error err => (.error (.creatingRequest err), c, w)
    | .ok req =>
      let req := req.SetHeader "Accept" "application/json"
      match c.Token with
      | none => (.error .nilToken, c, w)
      | some token =>
        let req := req.SetHeader "Authorization" token.GetAuthorizationHeader
        let req := if body.isSome then req.SetHeader "Content-Type" "application/json" else req
        match HTTPClient.Do env w req with
        | (.error err, w1) => (.error (.sendingRequest err), c, w1)
        | (.ok resp, w1) =>
          if resp.StatusCode ≠ 200 then (.error (.unexpectedStatus resp.StatusCode), c, w1)
          else
            match env.ReadAll resp.Body with
            | .error err => (.error (.readingBody err), c, w1)
            | .ok respBody => (.ok respBody, c, w1)

/-- The test `c.Token == nil || !c.Token.IsValid()` of `Request`, at clock reading `now`. -/
def RapidClient.needsToken (c : RapidClient) (now : Int) : Bool :=
  match c.Token with
  | none => true
  | some token => !token.IsValid now

/-- Go `RapidClient.Request`: returns the response body or the error, the client and the
world it leaves behind. -/
def RapidClient.Request (env : Env W B J) (c : RapidClient) (w : World W)
    (method urlPath : String) (body : Option J) (params : url.Values) :
    Except Error String × RapidClient × World W :=
  if c.needsToken (env.Now w.net) then
    match c.GenerateToken env w with
    | (some err, c1, w1) => (.error (.generatingToken err), c1, w1)
    | (none, c1, w1) => c1.resourceCall env w1 method urlPath body params
  else c.resourceCall env w method urlPath body params

/-- Go `RapidClient.Get`. -/
def RapidClient.Get (env : Env W B J) (c : RapidClient) (w : World W)
    (urlPath : String) (params : url.Values) : Except Error String × RapidClient × World W :=
  c.Request env w "GET" urlPath none params

/-- Go `RapidClient.Post`. -/
def RapidClient.Post (env : Env W B J) (c : RapidClient) (w : World W)
    (urlPath : String) (body : Option J) : Except Error String × RapidClient × World W :=
  c.Request env w "POST" urlPath body []

/-- Go `RapidClient.Put`. -/
def RapidClient.Put (env : Env W B J) (c : RapidClient) (w : World W)
    (urlPath : String) (body : Option J) : Except Error String × RapidClient × World W :=
  c.Request env w "PUT" urlPath body []

/-- Go `RapidClient.Delete`. -/
def RapidClient.Delete (env : Env W B J) (c : RapidClient) (w : World W)
    (urlPath : String) : Except Error String × RapidClient × World W :=
  c.Request env w "DELETE" urlPath none []


/-! ## Requests and parameter sets the statements below name -/

/-- The parameter set of the refresh grant (lines 130-133 of the source). -/
def refreshParameters (refreshToken : String) : url.Values :=
  [("grant_type", ["refresh_token"]),
   ("refresh_token", [refreshToken])]

/-- The token request as the transport receives it: what lines 93-101 (and 135-143) of the
source build from a parameter set. -/
def RapidClient.tokenRequest (c : RapidClient) (params : url.Values) : http.Request :=
  { Method := "POST"
    URL := c.BaseURL ++ "/token"
    Header :=
      [("Content-Type", "application/x-www-form-urlencoded"),
       ("Authorization", "Basic " ++ base64.EncodeToString (c.Key ++ ":" ++ c.Secret))]
    Body := params.Encode }

/-- The resource request as the transport receives it: what lines 191-214 of the source
build for a client holding `token`, with `reqBody` the encoded body. -/
def RapidClient.resourceRequest (c : RapidClient) (token : gorapid.Token)
    (method urlPath : String) (hasBody : Bool) (reqBody : String) (params : url.Values) :
    http.Request :=
  { Method := if method = "" then "GET" else method
    URL := c.fullURL urlPath params
    Header :=
      [("Accept", "application/json"), ("Authorization", token.GetAuthorizationHeader)] ++
        (if hasBody then [("Content-Type", "application/json")] else [])
    Body := reqBody }

/-- The exchange with the token endpoint for a given parameter set: the common text of
`GenerateToken` (lines 93-121) and of the refresh grant (lines 135-163). -/
def RapidClient.tokenExchange (env : Env W B J) (c : RapidClient) (w : World W)
    (params : url.Values) : Option Error × RapidClient × World W :=
  match http.NewRequest env.Parse "POST" (c.BaseURL ++ "/token") params.Encode with
  | .error err => (some (.creatingRequest err), c, w)
  | .ok req =>
    let req := req.SetHeader "Content-Type" "application/x-www-form-urlencoded"
    let req := req.SetHeader "Authorization"
      ("Basic " ++ base64.EncodeToString (c.Key ++ ":" ++ c.Secret))
    match HTTPClient.Do env w req with
    | (.error err, w1) => (some (.sendingRequest err), c, w1)
    | (.ok resp, w1) =>
      if resp.StatusCode ≠ 200 then (some (.unexpectedStatus resp.StatusCode), c, w1)
      else
        match env.Decode resp.Body with
        | .error err => (some (.decodingResponse err), c, w1)
        | .ok (value, expiresIn, tokenType, refreshToken, _) =>
          let token : gorapid.Token :=
            { Value := value
              ExpiresIn := expiresIn
              TokenType := tokenType
              RefreshToken := refreshToken
              ExpireTime := env.Now w1.net + wrapInt64 (expiresIn * Second) }
          (none, { c with Token := some token }, w1)

/-- The largest lifetime, in seconds, whose count of nanoseconds is an `int64`. -/
def maxLifetime : Int := 9223372036

/-- The validity window of a token issued at instant `t0`: it expires `ExpiresIn` seconds
after `t0`, is valid from `t0` until then, and invalid from then on. -/
def Token.hasWindow (t : Token) (t0 : Int) : Prop :=
  t.ExpireTime = t0 + t.ExpiresIn * Second ∧
    t.IsValid t0 = true ∧
    (∀ now, t0 ≤ now → now < t0 + t.ExpiresIn * Second → t.IsValid now = true) ∧
    (∀ now, t0 + t.ExpiresIn * Second ≤ now → t.IsValid now = false)

/-- The three configuration fields of two clients agree. -/
def RapidClient.sameConfig (c c1 : RapidClient) : Prop :=
  c1.BaseURL = c.BaseURL ∧ c1.Key = c.Key ∧ c1.Secret = c.Secret

/-- A string of `n` slashes. -/
def slashes (n : Nat) : String := ⟨List.replicate n '/'⟩

/-- A mock world for the examples: the transport answers the requests in turn from a list
of scripted results, one second passes per round trip. -/
structure Mock where
  clock : Int
  script : List (Except String (http.Response String))

/-- The collaborators over the mock world: every URL parses, the body `ok` decodes to the
token `abc` of type `Bearer` living 3600 seconds, bodies are read as they are. -/
def mockEnv : Env Mock String String where
  Now := fun m => m.clock
  Do := fun m _ =>
    match m.script with
    | [] => (.error "connection refused", { m with clock := m.clock + Second })
    | r :: rest => (r, { clock := m.clock + Second, script := rest })
  Parse := fun _ => none
  Decode := fun b =>
    if b = "ok" then .ok ("abc", 3600, "Bearer", "", 0) else .error "unexpected end of JSON input"
  ReadAll := fun b => .ok b
  Marshal := fun j => .ok j

/-- A mock world at instant 0 with the given scripted results and no call made yet. -/
def mockWorld (script : List (Except String (http.Response String))) : World Mock :=
  { net := { clock := 0, script := script }, calls := [] }

/-- The client of the end-to-end example: `NewRapidClient` on `https://api.test/`, `k`, `s`. -/
def exampleClient : RapidClient :=
  { BaseURL := "https://api.test"
    Key := "k"
    Secret := "s"
    UserWebToken := ""
    HTTPClient := { Timeout := 600 * Second }
    Token := none }

/-- The example client holding a token that expired before instant 0 and carries the
refresh credential `r1`. -/
def expiredClient : RapidClient :=
  { exampleClient with
    Token := some
      { Value := "old", ExpiresIn := 3600, TokenType := "Bearer", RefreshToken := "r1",
        ExpireTime := -1 } }

end gorapid

namespace gorapid

variable {W B J : Type}

/-! ## Grant selection -/

/-- C6: grant selection is a function of the user assertion only. A client with a
non-empty `UserWebToken` gets exactly the jwt-bearer grant with the assertion, a client
with an empty one exactly the client-credentials grant with the fixed scope, and two
clients with the same `UserWebToken` get the same parameter set whatever their token,
endpoint, key and secret. -/
theorem generateParameters_selects_grant (c : RapidClient) :
    (c.UserWebToken ≠ "" →
      c.generateParameters =
        [("grant_type", ["urn:ietf:params:oauth:grant-type:jwt-bearer"]),
         ("assertion", [c.UserWebToken])]) ∧
    (c.UserWebToken = "" →
      c.generateParameters =
        [("grant_type", ["client_credentials"]),
         ("scope", ["am_application_scope,default"])]) ∧
    (∀ c1 : RapidClient, c1.UserWebToken = c.UserWebToken →
      c1.generateParameters = c.generateParameters) := by
  refine ⟨fun h => ?_, fun h => ?_, fun c1 h => ?_⟩
  · simp [RapidClient.generateParameters, h]
  · simp [RapidClient.generateParameters, h]
  · simp [RapidClient.generateParameters, h]

/-- Witness of C6: the example client, without assertion, gets the client-credentials grant. -/
theorem generateParameters_selects_grant_witness :
    exampleClient.UserWebToken = "" ∧
      exampleClient.generateParameters =
        [("grant_type", ["client_credentials"]),
         ("scope", ["am_application_scope,default"])] :=
  ⟨rfl, (generateParameters_selects_grant exampleClient).2.1 rfl⟩

/-! ## Validity window of a token -/

/-- Reduction to `int64` leaves a value of the range alone. -/
theorem wrapInt64_of_range (x : Int) (h0 : 0 ≤ x) (h1 : x ≤ maxInt64) : wrapInt64 x = x := by
  unfold wrapInt64
  unfold maxInt64 at h1
  omega

/-- A lifetime up to `maxLifetime` seconds is not changed by the multiplication with
`time.Second`. -/
theorem duration_exact (n : Int) (h0 : 0 < n) (h1 : n ≤ maxLifetime) :
    wrapInt64 (n * Second) = n * Second := by
  unfold maxLifetime at h1
  apply wrapInt64_of_range
  · unfold Second; omega
  · unfold Second maxInt64; omega

/-- A token whose expiry is the issue instant plus its lifetime has the validity window. -/
theorem hasWindow_of_expiry (t : Token) (t0 : Int) (hpos : 0 < t.ExpiresIn)
    (h : t.ExpireTime = t0 + t.ExpiresIn * Second) : t.hasWindow t0 := by
  have hs : 0 < t.ExpiresIn * Second := by unfold Second; omega
  refine ⟨h, ?_, ?_, ?_⟩
  · simp only [Token.IsValid, decide_eq_true_eq]; omega
  · intro now _ h2
    simp only [Token.IsValid, decide_eq_true_eq]; omega
  · intro now h1
    simp only [Token.IsValid, decide_eq_false_iff_not]; omega

/-- Counterexample to C7 as stated: a lifetime of 9223372037 seconds is positive and a Go
`int`, but its count of nanoseconds overflows `int64`; the token built at instant 0 expires
in the past and is invalid at instant 0 already. -/
theorem NewToken_lifetime_overflow :
    (0 : Int) < 9223372037 ∧ (9223372037 : Int) ≤ maxInt64 ∧
      (NewToken 0 "abc" 9223372037 "Bearer" "").ExpireTime = -9223372036709551616 ∧
      (NewToken 0 "abc" 9223372037 "Bearer" "").ExpireTime ≠ 0 + 9223372037 * Second ∧
      (NewToken 0 "abc" 9223372037 "Bearer" "").IsValid 0 = false := by
  decide

/-! ## The exchange with the token endpoint -/

/-- `GenerateToken` is the token exchange on the grant-selection parameters. -/
theorem GenerateToken_eq_tokenExchange (env : Env W B J) (c : RapidClient) (w : World W) :
    c.GenerateToken env w = c.tokenExchange env w c.generateParameters := rfl

/-- The refresh grant is the token exchange on the refresh parameters. -/
theorem refreshGrant_eq_tokenExchange (env : Env W B J) (c : RapidClient) (w : World W)
    (held : Token) :
    c.refreshGrant env w held = c.tokenExchange env w (refreshParameters held.RefreshToken) :=
  rfl

/-- `http.NewRequest` with the method POST fails exactly when the URL does not parse. -/
theorem NewRequest_POST (parse : String → Option String) (u body : String) :
    http.NewRequest parse "POST" u body =
      match parse u with
      | some err => .error err
      | none => .ok { Method := "POST", URL := u, Header := [], Body := body } := by
  have hv : http.validMethod "POST" = true := by decide
  simp [http.NewRequest, hv]

/-- The token exchange stops before any call when the token URL does not parse. -/
theorem tokenExchange_of_parse_error (env : Env W B J) (c : RapidClient) (w : World W)
    (params : url.Values) (err : String) (h : env.Parse (c.BaseURL ++ "/token") = some err) :
    c.tokenExchange env w params = (some (.creatingRequest err), c, w) := by
  simp [RapidClient.tokenExchange, NewRequest_POST, h]

/-- The token exchange, once the token URL parses: one call of `tokenRequest`, then the
status check and the decoding. -/
theorem tokenExchange_of_parse_ok (env : Env W B J) (c : RapidClient) (w : World W)
    (params : url.Values) (h : env.Parse (c.BaseURL ++ "/token") = none) :
    c.tokenExchange env w params =
      match env.Do w.net (c.tokenRequest params) with
      | (.error err, n) =>
        (some (.sendingRequest err), c,
          { net := n, calls := w.calls ++ [c.tokenRequest params] })
      | (.ok resp, n) =>
        if resp.StatusCode ≠ 200 then
          (some (.unexpectedStatus resp.StatusCode), c,
            { net := n, calls := w.calls ++ [c.tokenRequest params] })
        else
          match env.Decode resp.Body with
          | .error err =>
            (some (.decodingResponse err), c,
              { net := n, calls := w.calls ++ [c.tokenRequest params] })
          | .ok (value, expiresIn, tokenType, refreshToken, _) =>
            (none,
              { c with
                Token := some
                  { Value := value
                    ExpiresIn := expiresIn
                    TokenType := tokenType
                    RefreshToken := refreshToken
                    ExpireTime := env.Now n + wrapInt64 (expiresIn * Second) } },
              { net := n, calls := w.calls ++ [c.tokenRequest params] }) := by
  have hreq : ∀ r : http.Request,
      r = { Method := "POST", URL := c.BaseURL ++ "/token", Header := [], Body := params.Encode } →
      (r.SetHeader "Content-Type" "application/x-www-form-urlencoded").SetHeader "Authorization"
          ("Basic " ++ base64.EncodeToString (c.Key ++ ":" ++ c.Secret)) =
        c.tokenRequest params := by
    intro r hr
    subst hr
    simp [http.Request.SetHeader, RapidClient.tokenRequest]
  simp only [RapidClient.tokenExchange, NewRequest_POST, h, hreq _ rfl, HTTPClient.Do]
  rcases hdo : env.Do w.net (c.tokenRequest params) with ⟨r, n⟩
  cases r with
  | error err => rfl
  | ok resp => rfl

/-- The token exchange answered by a status other than 200. -/
theorem tokenExchange_of_status (env : Env W B J) (c : RapidClient) (w : World W)
    (params : url.Values) (resp : http.Response B) (n : W)
    (hparse : env.Parse (c.BaseURL ++ "/token") = none)
    (hdo : env.Do w.net (c.tokenRequest params) = (.ok resp, n))
    (hstatus : resp.StatusCode ≠ 200) :
    c.tokenExchange env w params =
      (some (.unexpectedStatus resp.StatusCode), c,
        { net := n, calls := w.calls ++ [c.tokenRequest params] }) := by
  rw [tokenExchange_of_parse_ok env c w params hparse, hdo]
  simp [hstatus]

/-- The token exchange whose call fails in the transport. -/
theorem tokenExchange_of_transport_error (env : Env W B J) (c : RapidClient) (w : World W)
    (params : url.Values) (err : String) (n : W)
    (hparse : env.Parse (c.BaseURL ++ "/token") = none)
    (hdo : env.Do w.net (c.tokenRequest params) = (.error err, n)) :
    c.tokenExchange env w params =
      (some (.sendingRequest err), c,
        { net := n, calls := w.calls ++ [c.tokenRequest params] }) := by
  rw [tokenExchange_of_parse_ok env c w params hparse, hdo]

/-- The token exchange answered by 200 and a body that does not decode. -/
theorem tokenExchange_of_undecodable (env : Env W B J) (c : RapidClient) (w : World W)
    (params : url.Values) (resp : http.Response B) (n : W) (err : String)
    (hparse : env.Parse (c.BaseURL ++ "/token") = none)
    (hdo : env.Do w.net (c.tokenRequest params) = (.ok resp, n))
    (hstatus : resp.StatusCode = 200)
    (hdecode : env.Decode resp.Body = .error err) :
    c.tokenExchange env w params =
      (some (.decodingResponse err), c,
        { net := n, calls := w.calls ++ [c.tokenRequest params] }) := by
  rw [tokenExchange_of_parse_ok env c w params hparse, hdo]
  simp [hstatus, hdecode]

/-- The token exchange answered by 200 and a body that decodes. -/
theorem tokenExchange_of_token (env : Env W B J) (c : RapidClient) (w : World W)
    (params : url.Values) (resp : http.Response B) (n : W)
    (value : String) (expiresIn : Int) (tokenType refreshToken : String) (expireTime : Int)
    (hparse : env.Parse (c.BaseURL ++ "/token") = none)
    (hdo : env.Do w.net (c.tokenRequest params) = (.ok resp, n))
    (hstatus : resp.StatusCode = 200)
    (hdecode : env.Decode resp.Body = .ok (value, expiresIn, tokenType, refreshToken, expireTime)) :
    c.tokenExchange env w params =
      (none,
        { c with
          Token := some
            { Value := value
              ExpiresIn := expiresIn
              TokenType := tokenType
              RefreshToken := refreshToken
              ExpireTime := env.Now n + wrapInt64 (expiresIn * Second) } },
        { net := n, calls := w.calls ++ [c.tokenRequest params] }) := by
  rw [tokenExchange_of_parse_ok env c w params hparse, hdo]
  simp [hstatus, hdecode]

/-- Every outcome of the token exchange: a failure leaves the client as it was, with no
call or the one token call made; a success made the one token call and replaced the token
by one whose expiry is the clock reading after the call plus the wrapped lifetime. -/
theorem tokenExchange_outcome (env : Env W B J) (c : RapidClient) (w : World W)
    (params : url.Values) :
    (∃ e, (c.tokenExchange env w params).1 = some e ∧
        (c.tokenExchange env w params).2.1 = c ∧
        ((c.tokenExchange env w params).2.2 = w ∨
          (c.tokenExchange env w params).2.2.calls = w.calls ++ [c.tokenRequest params])) ∨
    (∃ tok : Token, (c.tokenExchange env w params).1 = none ∧
        (c.tokenExchange env w params).2.1 = { c with Token := some tok } ∧
        (c.tokenExchange env w params).2.2.calls = w.calls ++ [c.tokenRequest params] ∧
        tok.ExpireTime =
          env.Now (c.tokenExchange env w params).2.2.net + wrapInt64 (tok.ExpiresIn * Second)) := by
  cases hparse : env.Parse (c.BaseURL ++ "/token") with
  | some err =>
    rw [tokenExchange_of_parse_error env c w params err hparse]
    exact Or.inl ⟨_, rfl, rfl, Or.inl rfl⟩
  | none =>
    rcases hdo : env.Do w.net (c.tokenRequest params) with ⟨r, n⟩
    cases r with
    | error err =>
      rw [tokenExchange_of_transport_error env c w params err n hparse hdo]
      exact Or.inl ⟨_, rfl, rfl, Or.inr rfl⟩
    | ok resp =>
      by_cases hstatus : resp.StatusCode = 200
      · cases hdec : env.Decode resp.Body with
        | error err =>
          rw [tokenExchange_of_undecodable env c w params resp n err hparse hdo hstatus hdec]
          exact Or.inl ⟨_, rfl, rfl, Or.inr rfl⟩
        | ok v =>
          obtain ⟨value, expiresIn, tokenType, refreshToken, expireTime⟩ := v
          rw [tokenExchange_of_token env c w params resp n value expiresIn tokenType
            refreshToken expireTime hparse hdo hstatus hdec]
          exact Or.inr ⟨_, rfl, rfl, rfl, rfl⟩
      · rw [tokenExchange_of_status env c w params resp n hparse hdo hstatus]
        exact Or.inl ⟨_, rfl, rfl, Or.inr rfl⟩

/-- C7, amended: for every lifetime of more than 0 and at most `maxLifetime` = 9223372036
seconds, a token built at instant `t0` by `NewToken` expires at `t0` plus the lifetime, is
valid at `t0` and at every instant before the expiry, and invalid at the expiry and after
it; and so is the token a successful `GenerateToken` or `RefreshToken` stores with that
`expires_in`, `t0` being the clock reading after the token call. -/
theorem token_validity_window (env : Env W B J) (c : RapidClient) (w : World W)
    (t0 : Int) (value tokenType refreshToken : String) (lifetime : Int)
    (hpos : 0 < lifetime) (hmax : lifetime ≤ maxLifetime) :
    (NewToken t0 value lifetime tokenType refreshToken).hasWindow t0 ∧
    (∀ tok : Token, (c.GenerateToken env w).1 = none →
      (c.GenerateToken env w).2.1.Token = some tok → tok.ExpiresIn = lifetime →
      tok.hasWindow (env.Now (c.GenerateToken env w).2.2.net)) ∧
    (∀ tok : Token, (c.RefreshToken env w).1 = none →
      (c.RefreshToken env w).2.1.Token = some tok → tok.ExpiresIn = lifetime →
      tok.hasWindow (env.Now (c.RefreshToken env w).2.2.net)) := by
  have key : ∀ params (tok : Token), (c.tokenExchange env w params).1 = none →
      (c.tokenExchange env w params).2.1.Token = some tok → tok.ExpiresIn = lifetime →
      tok.hasWindow (env.Now (c.tokenExchange env w params).2.2.net) := by
    intro params tok hnone htok hlife
    rcases tokenExchange_outcome env c w params with ⟨e, he, _⟩ | ⟨tok1, _, hc, _, hexp⟩
    · rw [he] at hnone; cases hnone
    · rw [hc] at htok
      simp only [Option.some.injEq] at htok
      subst htok
      apply hasWindow_of_expiry _ _ (by omega)
      rw [hexp, hlife, duration_exact lifetime hpos hmax]
  refine ⟨?_, ?_, ?_⟩
  · apply hasWindow_of_expiry _ _ hpos
    simp only [NewToken]
    rw [duration_exact lifetime hpos hmax]
  · rw [GenerateToken_eq_tokenExchange]
    exact key _
  · unfold RapidClient.RefreshToken
    split
    · rw [GenerateToken_eq_tokenExchange]; exact key _
    · split
      · rw [GenerateToken_eq_tokenExchange]; exact key _
      · rw [refreshGrant_eq_tokenExchange]; exact key _

/-- Witness of C7: a lifetime of 3600 seconds, `NewToken` at instant 0 and the example
client against a token endpoint answering 200. -/
theorem token_validity_window_witness :
    (0 : Int) < 3600 ∧ (3600 : Int) ≤ maxLifetime ∧
      (NewToken 0 "abc" 3600 "Bearer" "").hasWindow 0 :=
  ⟨by decide, by decide,
    (token_validity_window mockEnv exampleClient
      (mockWorld [.ok { StatusCode := 200, Body := "ok" }]) 0 "abc" "Bearer" "" 3600
      (by decide) (by decide)).1⟩

/-! ## Failure of the token operations -/

/-- A failed token exchange returns the client it was given. -/
theorem tokenExchange_failure_unchanged (env : Env W B J) (c : RapidClient) (w : World W)
    (params : url.Values) (e : Error) (h : (c.tokenExchange env w params).1 = some e) :
    (c.tokenExchange env w params).2.1 = c := by
  rcases tokenExchange_outcome env c w params with ⟨_, _, hc, _⟩ | ⟨_, hnone, _⟩
  · exact hc
  · rw [hnone] at h; cases h

/-- `RefreshToken` is a token exchange: on the grant-selection parameters without held
refresh credential, on the refresh parameters with one. -/
theorem RefreshToken_eq_tokenExchange (env : Env W B J) (c : RapidClient) (w : World W) :
    ((c.Token = none ∨ ∃ held, c.Token = some held ∧ held.RefreshToken = "") ∧
        c.RefreshToken env w = c.tokenExchange env w c.generateParameters) ∨
      (∃ held, c.Token = some held ∧ held.RefreshToken ≠ "" ∧
        c.RefreshToken env w = c.tokenExchange env w (refreshParameters held.RefreshToken)) := by
  unfold RapidClient.RefreshToken
  cases htok : c.Token with
  | none => exact Or.inl ⟨Or.inl rfl, rfl⟩
  | some held =>
    by_cases hr : held.RefreshToken = ""
    · exact Or.inl ⟨Or.inr ⟨held, rfl, hr⟩, by simp [hr, GenerateToken_eq_tokenExchange]⟩
    · exact Or.inr ⟨held, rfl, hr, by simp [hr, refreshGrant_eq_tokenExchange]⟩

/-- C3: a failed `GenerateToken` or `RefreshToken` (request not built, transport error,
status other than 200, body not decodable) leaves the client, and so its token, exactly as
it was; and when the token endpoint answers with a status other than 200 the error is
`unexpected status code` with that status, for `GenerateToken` and for both grants of
`RefreshToken`. -/
theorem token_operations_fail_atomically (env : Env W B J) (c : RapidClient) (w : World W) :
    (∀ e, (c.GenerateToken env w).1 = some e → (c.GenerateToken env w).2.1 = c) ∧
    (∀ e, (c.RefreshToken env w).1 = some e → (c.RefreshToken env w).2.1 = c) ∧
    (∀ (resp : http.Response B) (n : W), env.Parse (c.BaseURL ++ "/token") = none →
      env.Do w.net (c.tokenRequest c.generateParameters) = (.ok resp, n) →
      resp.StatusCode ≠ 200 →
      (c.GenerateToken env w).1 = some (.unexpectedStatus resp.StatusCode) ∧
        (c.GenerateToken env w).2.1.Token = c.Token) ∧
    (∀ (resp : http.Response B) (n : W),
      (c.Token = none ∨ ∃ held, c.Token = some held ∧ held.RefreshToken = "") →
      env.Parse (c.BaseURL ++ "/token") = none →
      env.Do w.net (c.tokenRequest c.generateParameters) = (.ok resp, n) →
      resp.StatusCode ≠ 200 →
      (c.RefreshToken env w).1 = some (.unexpectedStatus resp.StatusCode) ∧
        (c.RefreshToken env w).2.1.Token = c.Token) ∧
    (∀ (held : Token) (resp : http.Response B) (n : W),
      c.Token = some held → held.RefreshToken ≠ "" →
      env.Parse (c.BaseURL ++ "/token") = none →
      env.Do w.net (c.tokenRequest (refreshParameters held.RefreshToken)) = (.ok resp, n) →
      resp.StatusCode ≠ 200 →
      (c.RefreshToken env w).1 = some (.unexpectedStatus resp.StatusCode) ∧
        (c.RefreshToken env w).2.1.Token = c.Token) := by
  refine ⟨?_, ?_, ?_, ?_, ?_⟩
  · intro e h
    rw [GenerateToken_eq_tokenExchange] at h ⊢
    exact tokenExchange_failure_unchanged env c w _ e h
  · intro e h
    rcases RefreshToken_eq_tokenExchange env c w with ⟨_, heq⟩ | ⟨held, _, _, heq⟩
    · rw [heq] at h ⊢
      exact tokenExchange_failure_unchanged env c w _ e h
    · rw [heq] at h ⊢
      exact tokenExchange_failure_unchanged env c w _ e h
  · intro resp n hparse hdo hstatus
    rw [GenerateToken_eq_tokenExchange,
      tokenExchange_of_status env c w _ resp n hparse hdo hstatus]
    exact ⟨rfl, rfl⟩
  · intro resp n hcred hparse hdo hstatus
    rcases RefreshToken_eq_tokenExchange env c w with ⟨_, heq⟩ | ⟨held, htok, hne, _⟩
    · rw [heq, tokenExchange_of_status env c w _ resp n hparse hdo hstatus]
      exact ⟨rfl, rfl⟩
    · rcases hcred with hnone | ⟨held1, htok1, hempty⟩
      · rw [hnone] at htok; cases htok
      · rw [htok1] at htok
        simp only [Option.some.injEq] at htok
        subst htok
        exact absurd hempty hne
  · intro held resp n htok hne hparse hdo hstatus
    rcases RefreshToken_eq_tokenExchange env c w with ⟨hcred, _⟩ | ⟨held1, htok1, _, heq⟩
    · rcases hcred with hnone | ⟨held1, htok1, hempty⟩
      · rw [hnone] at htok; cases htok
      · rw [htok1] at htok
        simp only [Option.some.injEq] at htok
        subst htok
        exact absurd hempty hne
    · rw [htok1] at htok
      simp only [Option.some.injEq] at htok
      subst htok
      rw [heq, tokenExchange_of_status env c w _ resp n hparse hdo hstatus]
      exact ⟨rfl, rfl⟩

/-- Witness of C3: the example client against a token endpoint answering 500 fails with
that status and keeps its (absent) token. -/
theorem token_operations_fail_atomically_witness :
    (exampleClient.GenerateToken mockEnv
        (mockWorld [.ok { StatusCode := 500, Body := "no" }])).1 =
        some (.unexpectedStatus 500) ∧
      (exampleClient.GenerateToken mockEnv
        (mockWorld [.ok { StatusCode := 500, Body := "no" }])).2.1.Token = exampleClient.Token :=
  (token_operations_fail_atomically mockEnv exampleClient
    (mockWorld [.ok { StatusCode := 500, Body := "no" }])).2.2.1
    { StatusCode := 500, Body := "no" } { clock := Second, script := [] } rfl rfl (by decide)

/-! ## Refresh without a refresh credential -/

/-- C4: for a client without token, or whose token has an empty refresh credential,
`RefreshToken` is `GenerateToken`: same result, same client and same world left behind,
and the only request either can have sent is the token request on the grant-selection
parameters (URL `BaseURL/token`, Basic authorization from key and secret). -/
theorem RefreshToken_without_credential (env : Env W B J) (c : RapidClient) (w : World W)
    (h : c.Token = none ∨ ∃ held, c.Token = some held ∧ held.RefreshToken = "") :
    c.RefreshToken env w = c.GenerateToken env w ∧
      ((c.RefreshToken env w).2.2 = w ∨
        (c.RefreshToken env w).2.2.calls =
          w.calls ++ [c.tokenRequest c.generateParameters]) := by
  have heq : c.RefreshToken env w = c.GenerateToken env w := by
    unfold RapidClient.RefreshToken
    rcases h with hnone | ⟨held, htok, hempty⟩
    · simp [hnone]
    · simp [htok, hempty]
  refine ⟨heq, ?_⟩
  rw [heq, GenerateToken_eq_tokenExchange]
  rcases tokenExchange_outcome env c w c.generateParameters with
    ⟨_, _, _, hw⟩ | ⟨_, _, _, hcalls, _⟩
  · exact hw
  · exact Or.inr hcalls

/-- Witness of C4: the example client holds no token. -/
theorem RefreshToken_without_credential_witness :
    exampleClient.RefreshToken mockEnv (mockWorld [.ok { StatusCode := 200, Body := "ok" }]) =
        exampleClient.GenerateToken mockEnv
          (mockWorld [.ok { StatusCode := 200, Body := "ok" }]) :=
  (RefreshToken_without_credential mockEnv exampleClient
    (mockWorld [.ok { StatusCode := 200, Body := "ok" }]) (Or.inl rfl)).1

/-! ## The resource call -/

/-- `http.NewRequest` on a valid method and a URL that parses. -/
theorem NewRequest_of_valid (parse : String → Option String) (method u body : String)
    (hmethod : http.validMethod (if method = "" then "GET" else method) = true)
    (hurl : parse u = none) :
    http.NewRequest parse method u body =
      .ok { Method := if method = "" then "GET" else method, URL := u, Header := [],
            Body := body } := by
  simp [http.NewRequest, hmethod, hurl]

/-- `http.NewRequest` fails or returns the request without headers. -/
theorem NewRequest_cases (parse : String → Option String) (method u body : String) :
    (∃ err, http.NewRequest parse method u body = .error err) ∨
      (http.validMethod (if method = "" then "GET" else method) = true ∧ parse u = none) := by
  by_cases hmethod : http.validMethod (if method = "" then "GET" else method) = true
  · cases hurl : parse u with
    | none => exact Or.inr ⟨hmethod, rfl⟩
    | some err => exact Or.inl ⟨err, by simp [http.NewRequest, hmethod, hurl]⟩
  · refine Or.inl ⟨"net/http: invalid method " ++
      (if method = "" then "GET" else method).quote, ?_⟩
    simp [http.NewRequest, hmethod]

/-- The headers `Request` sets on a fresh request give `resourceRequest`. -/
theorem resourceRequest_headers (c : RapidClient) (tok : Token) (method urlPath : String)
    (hasBody : Bool) (reqBody : String) (params : url.Values) (r : http.Request)
    (hr : r = { Method := if method = "" then "GET" else method,
                URL := c.fullURL urlPath params, Header := [], Body := reqBody }) :
    (if hasBody = true then
        ((r.SetHeader "Accept" "application/json").SetHeader "Authorization"
          tok.GetAuthorizationHeader).SetHeader "Content-Type" "application/json"
      else
        (r.SetHeader "Accept" "application/json").SetHeader "Authorization"
          tok.GetAuthorizationHeader) =
      c.resourceRequest tok method urlPath hasBody reqBody params := by
  subst hr
  cases hasBody <;> simp [http.Request.SetHeader, RapidClient.resourceRequest]

/-- The resource call, once its request is built: one call of `resourceRequest`, then the
status check and the reading of the body. -/
theorem resourceCall_of_request (env : Env W B J) (c : RapidClient) (w : World W)
    (method urlPath : String) (body : Option J) (params : url.Values)
    (tok : Token) (reqBody : String)
    (hbody : marshalBody env body = .ok reqBody)
    (hmethod : http.validMethod (if method = "" then "GET" else method) = true)
    (hurl : env.Parse (c.fullURL urlPath params) = none)
    (htok : c.Token = some tok) :
    c.resourceCall env w method urlPath body params =
      match env.Do w.net (c.resourceRequest tok method urlPath body.isSome reqBody params) with
      | (.error err, n) =>
        (.error (.sendingRequest err), c,
          { net := n,
            calls := w.calls ++
              [c.resourceRequest tok method urlPath body.isSome reqBody params] })
      | (.ok resp, n) =>
        if resp.StatusCode ≠ 200 then
          (.error (.unexpectedStatus resp.StatusCode), c,
            { net := n,
              calls := w.calls ++
                [c.resourceRequest tok method urlPath body.isSome reqBody params] })
        else
          match env.ReadAll resp.Body with
          | .error err =>
            (.error (.readingBody err), c,
              { net := n,
                calls := w.calls ++
                  [c.resourceRequest tok method urlPath body.isSome reqBody params] })
          | .ok respBody =>
            (.ok respBody, c,
              { net := n,
                calls := w.calls ++
                  [c.resourceRequest tok method urlPath body.isSome reqBody params] }) := by
  simp only [RapidClient.resourceCall, hbody,
    NewRequest_of_valid env.Parse method _ reqBody hmethod hurl, htok,
    resourceRequest_headers c tok method urlPath body.isSome reqBody params _ rfl,
    HTTPClient.Do]
  rcases hdo : env.Do w.net (c.resourceRequest tok method urlPath body.isSome reqBody params)
    with ⟨r, n⟩
  cases r with
  | error err => rfl
  | ok resp => rfl

/-- The resource call answered by a status other than 200. -/
theorem resourceCall_of_status (env : Env W B J) (c : RapidClient) (w : World W)
    (method urlPath : String) (body : Option J) (params : url.Values)
    (tok : Token) (reqBody : String) (resp : http.Response B) (n : W)
    (hbody : marshalBody env body = .ok reqBody)
    (hmethod : http.validMethod (if method = "" then "GET" else method) = true)
    (hurl : env.Parse (c.fullURL urlPath params) = none)
    (htok : c.Token = some tok)
    (hdo : env.Do w.net (c.resourceRequest tok method urlPath body.isSome reqBody params) =
      (.ok resp, n))
    (hstatus : resp.StatusCode ≠ 200) :
    c.resourceCall env w method urlPath body params =
      (.error (.unexpectedStatus resp.StatusCode), c,
        { net := n,
          calls := w.calls ++
            [c.resourceRequest tok method urlPath body.isSome reqBody params] }) := by
  rw [resourceCall_of_request env c w method urlPath body params tok reqBody hbody hmethod
    hurl htok, hdo]
  simp [hstatus]

/-- Every outcome of the resource call: the client is returned as it was, and either
nothing was sent or the one `resourceRequest` carrying the held token. -/
theorem resourceCall_outcome (env : Env W B J) (c : RapidClient) (w : World W)
    (method urlPath : String) (body : Option J) (params : url.Values) :
    (c.resourceCall env w method urlPath body params).2.1 = c ∧
      ((c.resourceCall env w method urlPath body params).2.2 = w ∨
        ∃ tok reqBody, c.Token = some tok ∧ marshalBody env body = .ok reqBody ∧
          http.validMethod (if method = "" then "GET" else method) = true ∧
          env.Parse (c.fullURL urlPath params) = none ∧
          (c.resourceCall env w method urlPath body params).2.2.calls =
            w.calls ++ [c.resourceRequest tok method urlPath body.isSome reqBody params]) := by
  cases hbody : marshalBody env body with
  | error err => simp [RapidClient.resourceCall, hbody]
  | ok reqBody =>
    rcases NewRequest_cases env.Parse method (c.fullURL urlPath params) reqBody with
      ⟨err, herr⟩ | ⟨hmethod, hurl⟩
    · simp [RapidClient.resourceCall, hbody, herr]
    · cases htok : c.Token with
      | none =>
        simp [RapidClient.resourceCall, hbody,
          NewRequest_of_valid env.Parse method _ reqBody hmethod hurl, htok]
      | some tok =>
        rw [resourceCall_of_request env c w method urlPath body params tok reqBody hbody
          hmethod hurl htok]
        rcases hdo : env.Do w.net
            (c.resourceRequest tok method urlPath body.isSome reqBody params) with ⟨r, n⟩
        cases r with
        | error err => exact ⟨rfl, Or.inr ⟨tok, reqBody, rfl, rfl, hmethod, hurl, rfl⟩⟩
        | ok resp =>
          dsimp only
          split
          · exact ⟨rfl, Or.inr ⟨tok, reqBody, rfl, rfl, hmethod, hurl, rfl⟩⟩
          · split <;> exact ⟨rfl, Or.inr ⟨tok, reqBody, rfl, rfl, hmethod, hurl, rfl⟩⟩

/-- The resource call, once its request is built, hands exactly that request to the
transport. -/
theorem resourceCall_calls_of_request (env : Env W B J) (c : RapidClient) (w : World W)
    (method urlPath : String) (body : Option J) (params : url.Values)
    (tok : Token) (reqBody : String)
    (hbody : marshalBody env body = .ok reqBody)
    (hmethod : http.validMethod (if method = "" then "GET" else method) = true)
    (hurl : env.Parse (c.fullURL urlPath params) = none)
    (htok : c.Token = some tok) :
    (c.resourceCall env w method urlPath body params).2.2.calls =
      w.calls ++ [c.resourceRequest tok method urlPath body.isSome reqBody params] := by
  rw [resourceCall_of_request env c w method urlPath body params tok reqBody hbody hmethod
    hurl htok]
  rcases hdo : env.Do w.net (c.resourceRequest tok method urlPath body.isSome reqBody params)
    with ⟨r, n⟩
  cases r with
  | error err => rfl
  | ok resp =>
    dsimp only
    split
    · rfl
    · split <;> rfl

/-! ## Request -/

/-- With a held token that is valid, `Request` is the resource call. -/
theorem Request_of_held (env : Env W B J) (c : RapidClient) (w : World W)
    (method urlPath : String) (body : Option J) (params : url.Values)
    (h : c.needsToken (env.Now w.net) = false) :
    c.Request env w method urlPath body params =
      c.resourceCall env w method urlPath body params := by
  simp [RapidClient.Request, h]

/-- Without a valid token, `Request` is the token exchange on the grant-selection
parameters, followed on success by the resource call of the client it leaves. -/
theorem Request_of_needed (env : Env W B J) (c : RapidClient) (w : World W)
    (method urlPath : String) (body : Option J) (params : url.Values)
    (h : c.needsToken (env.Now w.net) = true) :
    c.Request env w method urlPath body params =
      match c.tokenExchange env w c.generateParameters with
      | (some err, c1, w1) => (.error (.generatingToken err), c1, w1)
      | (none, c1, w1) => c1.resourceCall env w1 method urlPath body params := by
  simp [RapidClient.Request, h, GenerateToken_eq_tokenExchange]

/-- Counterexample to C1 as stated: the example client holds no token, the token endpoint
answers 200 with a body that decodes, and `Request` with the method `BAD METHOD` makes one
outbound call only, the token call: `http.NewRequest` rejects the method. -/
theorem Request_invalid_method_single_call :
    exampleClient.needsToken
        (mockEnv.Now (mockWorld [.ok { StatusCode := 200, Body := "ok" }]).net) = true ∧
      (mockEnv.Do (mockWorld [.ok { StatusCode := 200, Body := "ok" }]).net
        (exampleClient.tokenRequest exampleClient.generateParameters)).1 =
        .ok { StatusCode := 200, Body := "ok" } ∧
      mockEnv.Decode "ok" = .ok ("abc", 3600, "Bearer", "", 0) ∧
      (exampleClient.Request mockEnv (mockWorld [.ok { StatusCode := 200, Body := "ok" }])
        "BAD METHOD" "/widgets" none []).2.2.calls =
        [exampleClient.tokenRequest exampleClient.generateParameters] ∧
      ((exampleClient.Request mockEnv (mockWorld [.ok { StatusCode := 200, Body := "ok" }])
        "BAD METHOD" "/widgets" none []).2.2.calls).length = 1 :=
  ⟨rfl, rfl, rfl, rfl, rfl⟩

/-- C1, amended: for a client whose held token is absent or invalid, a token endpoint that
answers 200 with a decodable body, and a resource request that can be built (the body
encodes, the method is valid, both URLs parse), `Request` makes exactly two outbound calls
in this order: the POST to `BaseURL/token`, then the resource call, whose Authorization
header is `token_type`, one space, `access_token` of that response; `Get` is `Request`
with the method GET and no body. -/
theorem Request_acquires_then_calls (env : Env W B J) (c : RapidClient) (w : World W)
    (method urlPath : String) (body : Option J) (params : url.Values)
    (resp : http.Response B) (n : W)
    (value : String) (expiresIn : Int) (tokenType refreshToken : String) (expireTime : Int)
    (reqBody : String)
    (hneed : c.needsToken (env.Now w.net) = true)
    (hparse : env.Parse (c.BaseURL ++ "/token") = none)
    (hdo : env.Do w.net (c.tokenRequest c.generateParameters) = (.ok resp, n))
    (hstatus : resp.StatusCode = 200)
    (hdecode : env.Decode resp.Body = .ok (value, expiresIn, tokenType, refreshToken, expireTime))
    (hbody : marshalBody env body = .ok reqBody)
    (hmethod : http.validMethod (if method = "" then "GET" else method) = true)
    (hurl : env.Parse (c.fullURL urlPath params) = none) :
    (c.Request env w method urlPath body params).2.2.calls =
        w.calls ++
          [c.tokenRequest c.generateParameters,
           c.resourceRequest (NewToken (env.Now n) value expiresIn tokenType refreshToken)
             method urlPath body.isSome reqBody params] ∧
      (c.tokenRequest c.generateParameters).Method = "POST" ∧
      (c.tokenRequest c.generateParameters).URL = c.BaseURL ++ "/token" ∧
      (c.resourceRequest (NewToken (env.Now n) value expiresIn tokenType refreshToken)
          method urlPath body.isSome reqBody params).GetHeader "Authorization" =
        some (tokenType ++ " " ++ value) ∧
      c.Get env w urlPath params = c.Request env w "GET" urlPath none params := by
  refine ⟨?_, rfl, rfl, ?_, rfl⟩
  · rw [Request_of_needed env c w method urlPath body params hneed,
      tokenExchange_of_token env c w _ resp n value expiresIn tokenType refreshToken
        expireTime hparse hdo hstatus hdecode]
    have hcall := resourceCall_calls_of_request env
      { c with Token := some (NewToken (env.Now n) value expiresIn tokenType refreshToken) }
      { net := n, calls := w.calls ++ [c.tokenRequest c.generateParameters] }
      method urlPath body params
      (NewToken (env.Now n) value expiresIn tokenType refreshToken) reqBody hbody hmethod
      hurl rfl
    dsimp only
    rw [show (w.calls ++ [c.tokenRequest c.generateParameters,
          c.resourceRequest (NewToken (env.Now n) value expiresIn tokenType refreshToken)
            method urlPath body.isSome reqBody params]) =
        (w.calls ++ [c.tokenRequest c.generateParameters]) ++
          [c.resourceRequest (NewToken (env.Now n) value expiresIn tokenType refreshToken)
            method urlPath body.isSome reqBody params] by simp]
    exact hcall
  · simp [RapidClient.resourceRequest, http.Request.GetHeader, List.lookup,
      Token.GetAuthorizationHeader, NewToken]

/-- Witness of C1: the end-to-end example, `GET /widgets` on the example client against
a token endpoint answering 200 with the token `abc` of type `Bearer`. -/
theorem Request_acquires_then_calls_witness :
    (exampleClient.Request mockEnv
        (mockWorld [.ok { StatusCode := 200, Body := "ok" }, .ok { StatusCode := 200, Body := "[]" }])
        "GET" "/widgets" none []).2.2.calls =
      [] ++ [exampleClient.tokenRequest exampleClient.generateParameters,
        exampleClient.resourceRequest (NewToken Second "abc" 3600 "Bearer" "")
          "GET" "/widgets" false "" []] ∧
    (exampleClient.resourceRequest (NewToken Second "abc" 3600 "Bearer" "")
      "GET" "/widgets" false "" []).GetHeader "Authorization" = some ("Bearer" ++ " " ++ "abc") :=
  ⟨(Request_acquires_then_calls mockEnv exampleClient
      (mockWorld [.ok { StatusCode := 200, Body := "ok" }, .ok { StatusCode := 200, Body := "[]" }])
      "GET" "/widgets" none [] { StatusCode := 200, Body := "ok" }
      { clock := Second, script := [.ok { StatusCode := 200, Body := "[]" }] }
      "abc" 3600 "Bearer" "" 0 "" rfl rfl rfl rfl rfl rfl (by decide) rfl).1,
   (Request_acquires_then_calls mockEnv exampleClient
      (mockWorld [.ok { StatusCode := 200, Body := "ok" }, .ok { StatusCode := 200, Body := "[]" }])
      "GET" "/widgets" none [] { StatusCode := 200, Body := "ok" }
      { clock := Second, script := [.ok { StatusCode := 200, Body := "[]" }] }
      "abc" 3600 "Bearer" "" 0 "" rfl rfl rfl rfl rfl rfl (by decide) rfl).2.2.2.1⟩

/-- Counterexample to C2 as stated: the example client holds no token; the token endpoint
answers 200 and the resource endpoint 500. `Request` fails with the status 500, yet the
client now holds the token just acquired, not the absent token it had before the call. -/
theorem Request_resource_failure_after_acquire :
    exampleClient.Token = none ∧
      (exampleClient.Request mockEnv
        (mockWorld [.ok { StatusCode := 200, Body := "ok" }, .ok { StatusCode := 500, Body := "no" }])
        "GET" "/widgets" none []).1 = .error (.unexpectedStatus 500) ∧
      (exampleClient.Request mockEnv
        (mockWorld [.ok { StatusCode := 200, Body := "ok" }, .ok { StatusCode := 500, Body := "no" }])
        "GET" "/widgets" none []).2.1.Token = some (NewToken Second "abc" 3600 "Bearer" "") ∧
      (exampleClient.Request mockEnv
        (mockWorld [.ok { StatusCode := 200, Body := "ok" }, .ok { StatusCode := 500, Body := "no" }])
        "GET" "/widgets" none []).2.1.Token ≠ exampleClient.Token :=
  ⟨rfl, rfl, rfl, by decide⟩

/-- C2, amended: when the resource endpoint answers the resource request with a status
`s` other than 200, `Request` fails with the error `unexpected status code` carrying `s`,
returns no bytes, and leaves the client as it was when the resource call was made: with
the token held before the `Request` call when that token was present and valid, and
otherwise with the token `GenerateToken` stored just before the resource call. -/
theorem Request_resource_failure (env : Env W B J) (c : RapidClient) (w : World W)
    (method urlPath : String) (body : Option J) (params : url.Values)
    (c1 : RapidClient) (w1 : World W) (tok : Token) (reqBody : String)
    (resp : http.Response B) (n : W)
    (hstep : (c.needsToken (env.Now w.net) = false ∧ c1 = c ∧ w1 = w) ∨
      (c.needsToken (env.Now w.net) = true ∧ c.GenerateToken env w = (none, c1, w1)))
    (htok : c1.Token = some tok)
    (hbody : marshalBody env body = .ok reqBody)
    (hmethod : http.validMethod (if method = "" then "GET" else method) = true)
    (hurl : env.Parse (c1.fullURL urlPath params) = none)
    (hdo : env.Do w1.net (c1.resourceRequest tok method urlPath body.isSome reqBody params) =
      (.ok resp, n))
    (hstatus : resp.StatusCode ≠ 200) :
    (c.Request env w method urlPath body params).1 =
        .error (.unexpectedStatus resp.StatusCode) ∧
      (c.Request env w method urlPath body params).2.1 = c1 ∧
      (c.Request env w method urlPath body params).2.1.Token = some tok ∧
      (c.needsToken (env.Now w.net) = false →
        (c.Request env w method urlPath body params).2.1.Token = c.Token) := by
  have hres := resourceCall_of_status env c1 w1 method urlPath body params tok reqBody resp n
    hbody hmethod hurl htok hdo hstatus
  rcases hstep with ⟨hneed, hc, hw⟩ | ⟨hneed, hgen⟩
  · subst hc
    subst hw
    rw [Request_of_held env c1 w1 method urlPath body params hneed, hres]
    exact ⟨rfl, rfl, htok, fun _ => rfl⟩
  · rw [GenerateToken_eq_tokenExchange] at hgen
    rw [Request_of_needed env c w method urlPath body params hneed, hgen]
    dsimp only
    rw [hres]
    refine ⟨rfl, rfl, htok, fun h => ?_⟩
    rw [hneed] at h
    cases h

/-- Witness of C2: the example client, the token endpoint answering 200 and the resource
endpoint 500. -/
theorem Request_resource_failure_witness :
    (exampleClient.Request mockEnv
        (mockWorld [.ok { StatusCode := 200, Body := "ok" }, .ok { StatusCode := 500, Body := "no" }])
        "GET" "/widgets" none []).1 =
        .error (.unexpectedStatus ({ StatusCode := 500, Body := "no" } : http.Response String).StatusCode) ∧
      (exampleClient.Request mockEnv
        (mockWorld [.ok { StatusCode := 200, Body := "ok" }, .ok { StatusCode := 500, Body := "no" }])
        "GET" "/widgets" none []).2.1.Token = some (NewToken Second "abc" 3600 "Bearer" "") :=
  ⟨(Request_resource_failure mockEnv exampleClient
      (mockWorld [.ok { StatusCode := 200, Body := "ok" }, .ok { StatusCode := 500, Body := "no" }])
      "GET" "/widgets" none []
      { exampleClient with Token := some (NewToken Second "abc" 3600 "Bearer" "") }
      { net := { clock := Second, script := [.ok { StatusCode := 500, Body := "no" }] },
        calls := [exampleClient.tokenRequest exampleClient.generateParameters] }
      (NewToken Second "abc" 3600 "Bearer" "") ""
      { StatusCode := 500, Body := "no" } { clock := 2 * Second, script := [] }
      (Or.inr ⟨rfl, rfl⟩) rfl rfl (by decide) rfl rfl (by decide)).1,
   (Request_resource_failure mockEnv exampleClient
      (mockWorld [.ok { StatusCode := 200, Body := "ok" }, .ok { StatusCode := 500, Body := "no" }])
      "GET" "/widgets" none []
      { exampleClient with Token := some (NewToken Second "abc" 3600 "Bearer" "") }
      { net := { clock := Second, script := [.ok { StatusCode := 500, Body := "no" }] },
        calls := [exampleClient.tokenRequest exampleClient.generateParameters] }
      (NewToken Second "abc" 3600 "Bearer" "") ""
      { StatusCode := 500, Body := "no" } { clock := 2 * Second, script := [] }
      (Or.inr ⟨rfl, rfl⟩) rfl rfl (by decide) rfl rfl (by decide)).2.2.1⟩

/-- The client `Request` leaves behind is the one it was given, up to a new token. -/
theorem Request_client (env : Env W B J) (c : RapidClient) (w : World W)
    (method urlPath : String) (body : Option J) (params : url.Values) :
    (c.Request env w method urlPath body params).2.1 = c ∨
      ∃ tok : Token,
        (c.Request env w method urlPath body params).2.1 = { c with Token := some tok } := by
  cases hneed : c.needsToken (env.Now w.net) with
  | false =>
    rw [Request_of_held env c w method urlPath body params hneed]
    exact Or.inl (resourceCall_outcome env c w method urlPath body params).1
  | true =>
    rw [Request_of_needed env c w method urlPath body params hneed]
    have ho := tokenExchange_outcome env c w c.generateParameters
    rcases hx : c.tokenExchange env w c.generateParameters with ⟨oe, c1, w1⟩
    rw [hx] at ho
    rcases ho with ⟨e, he, hc, _⟩ | ⟨tok, hnone, hc, _, _⟩
    · simp only at he hc
      subst he
      subst hc
      exact Or.inl rfl
    · simp only at hnone hc
      subst hnone
      subst hc
      exact Or.inr ⟨tok, (resourceCall_outcome env _ w1 method urlPath body params).1⟩

/-- The nil dereference is never reached: `Request` makes its resource call with a token
in hand, the held one or the one `GenerateToken` just stored. -/
theorem Request_token_in_hand (env : Env W B J) (c : RapidClient) (w : World W)
    (method urlPath : String) (body : Option J) (params : url.Values) :
    (c.Request env w method urlPath body params).1 ≠ .error .nilToken := by
  have hres : ∀ (d : RapidClient) (w1 : World W) (tok : Token), d.Token = some tok →
      (d.resourceCall env w1 method urlPath body params).1 ≠ .error .nilToken := by
    intro d w1 tok htok
    cases hbody : marshalBody env body with
    | error err => simp [RapidClient.resourceCall, hbody]
    | ok reqBody =>
      rcases NewRequest_cases env.Parse method (d.fullURL urlPath params) reqBody with
        ⟨err, herr⟩ | ⟨hmethod, hurl⟩
      · simp [RapidClient.resourceCall, hbody, herr]
      · rw [resourceCall_of_request env d w1 method urlPath body params tok reqBody hbody
          hmethod hurl htok]
        rcases hdo : env.Do w1.net
            (d.resourceRequest tok method urlPath body.isSome reqBody params) with ⟨r, n⟩
        cases r with
        | error err => simp
        | ok resp =>
          dsimp only
          split
          · simp
          · split <;> simp
  cases hneed : c.needsToken (env.Now w.net) with
  | false =>
    rw [Request_of_held env c w method urlPath body params hneed]
    cases htok : c.Token with
    | none => simp [RapidClient.needsToken, htok] at hneed
    | some tok => exact hres c w tok htok
  | true =>
    rw [Request_of_needed env c w method urlPath body params hneed]
    have ho := tokenExchange_outcome env c w c.generateParameters
    rcases hx : c.tokenExchange env w c.generateParameters with ⟨oe, c1, w1⟩
    rw [hx] at ho
    rcases ho with ⟨e, he, _, _⟩ | ⟨tok, hnone, hc, _, _⟩
    · simp only at he
      subst he
      simp
    · simp only at hnone hc
      subst hnone
      subst hc
      exact hres _ w1 tok rfl

/-- The calls `Request` makes: with a valid held token none or the resource request; else
none, the token request on the grant-selection parameters alone, or that token request
followed by the resource request. -/
theorem Request_calls (env : Env W B J) (c : RapidClient) (w : World W)
    (method urlPath : String) (body : Option J) (params : url.Values) :
    (c.needsToken (env.Now w.net) = false →
      ((c.Request env w method urlPath body params).2.2 = w ∨
        ∃ tok reqBody, c.Token = some tok ∧
          (c.Request env w method urlPath body params).2.2.calls =
            w.calls ++ [c.resourceRequest tok method urlPath body.isSome reqBody params])) ∧
    (c.needsToken (env.Now w.net) = true →
      ((c.Request env w method urlPath body params).2.2 = w ∨
        (c.Request env w method urlPath body params).2.2.calls =
          w.calls ++ [c.tokenRequest c.generateParameters] ∨
        ∃ tok reqBody,
          (c.Request env w method urlPath body params).2.2.calls =
            w.calls ++
              [c.tokenRequest c.generateParameters,
               c.resourceRequest tok method urlPath body.isSome reqBody params])) := by
  refine ⟨fun hneed => ?_, fun hneed => ?_⟩
  · rw [Request_of_held env c w method urlPath body params hneed]
    rcases (resourceCall_outcome env c w method urlPath body params).2 with
      hw | ⟨tok, reqBody, htok, _, _, _, hcalls⟩
    · exact Or.inl hw
    · exact Or.inr ⟨tok, reqBody, htok, hcalls⟩
  · rw [Request_of_needed env c w method urlPath body params hneed]
    have ho := tokenExchange_outcome env c w c.generateParameters
    rcases hx : c.tokenExchange env w c.generateParameters with ⟨oe, c1, w1⟩
    rw [hx] at ho
    rcases ho with ⟨e, he, _, hw⟩ | ⟨tok, hnone, hc, hcalls, _⟩
    · simp only at he hw
      subst he
      rcases hw with hw | hw
      · exact Or.inl hw
      · exact Or.inr (Or.inl hw)
    · simp only at hnone hc hcalls
      subst hnone
      subst hc
      rcases (resourceCall_outcome env { c with Token := some tok } w1 method urlPath body
        params).2 with hw | ⟨tok1, reqBody, _, _, _, _, hcalls1⟩
      · refine Or.inr (Or.inl ?_)
        dsimp only
        rw [hw]
        exact hcalls
      · refine Or.inr (Or.inr ⟨tok1, reqBody, ?_⟩)
        dsimp only
        rw [hcalls1, hcalls]
        simp [RapidClient.resourceRequest, RapidClient.fullURL]

/-! ## Request and the refresh grant -/

/-- The form body of the refresh grant. -/
theorem Encode_refreshParameters (refreshToken : String) :
    (refreshParameters refreshToken).Encode =
      "grant_type=refresh_token&refresh_token=" ++ url.QueryEscape refreshToken := rfl

/-- The form body of the jwt-bearer grant. -/
theorem Encode_jwt_bearer (assertion : String) :
    url.Values.Encode
        [("grant_type", ["urn:ietf:params:oauth:grant-type:jwt-bearer"]),
         ("assertion", [assertion])] =
      "assertion=" ++ url.QueryEscape assertion ++ "&" ++ "grant_type" ++ "=" ++
        "urn%3Aietf%3Aparams%3Aoauth%3Agrant-type%3Ajwt-bearer" := rfl

/-- The form body of the client-credentials grant. -/
theorem Encode_client_credentials :
    url.Values.Encode
        [("grant_type", ["client_credentials"]),
         ("scope", ["am_application_scope,default"])] =
      "grant_type=client_credentials&scope=am_application_scope%2Cdefault" := rfl

/-- The form body of grant selection is never the form body of a refresh grant. -/
theorem Encode_generateParameters_ne_refresh (c : RapidClient) (refreshToken : String) :
    c.generateParameters.Encode ≠ (refreshParameters refreshToken).Encode := by
  rw [Encode_refreshParameters]
  unfold RapidClient.generateParameters
  split
  · rw [Encode_jwt_bearer]
    intro h
    have h1 := congrArg (fun s => s.data.head?) h
    simp [String.data_append] at h1
  · rw [Encode_client_credentials]
    intro h
    have h1 := congrArg (fun s => s.data.take 12) h
    simp [String.data_append] at h1

/-- C5: `Request` never uses the refresh grant. With a held token that is present and
valid it sends nothing or the resource request only, and a resource request is never a
token request. Otherwise it sends nothing, or the token request on the grant-selection
parameters, alone or followed by the resource request; the form body of that token
request is the encoding of the grant-selection parameters, which is never the encoding of
a refresh grant and has no `grant_type=refresh_token`, whatever token the client holds. -/
theorem Request_never_refreshes (env : Env W B J) (c : RapidClient) (w : World W)
    (method urlPath : String) (body : Option J) (params : url.Values) :
    (c.needsToken (env.Now w.net) = false →
      ((c.Request env w method urlPath body params).2.2 = w ∨
        ∃ tok reqBody, c.Token = some tok ∧
          (c.Request env w method urlPath body params).2.2.calls =
            w.calls ++ [c.resourceRequest tok method urlPath body.isSome reqBody params])) ∧
    (c.needsToken (env.Now w.net) = true →
      ((c.Request env w method urlPath body params).2.2 = w ∨
        (c.Request env w method urlPath body params).2.2.calls =
          w.calls ++ [c.tokenRequest c.generateParameters] ∨
        ∃ tok reqBody,
          (c.Request env w method urlPath body params).2.2.calls =
            w.calls ++
              [c.tokenRequest c.generateParameters,
               c.resourceRequest tok method urlPath body.isSome reqBody params])) ∧
    (∀ (tok : Token) (reqBody : String) (params1 : url.Values),
      c.resourceRequest tok method urlPath body.isSome reqBody params ≠
        c.tokenRequest params1) ∧
    (c.tokenRequest c.generateParameters).Body = c.generateParameters.Encode ∧
    (∀ refreshToken : String,
      (c.tokenRequest c.generateParameters).Body ≠ (refreshParameters refreshToken).Encode ∧
        c.tokenRequest c.generateParameters ≠ c.tokenRequest (refreshParameters refreshToken)) ∧
    ("grant_type", ["refresh_token"]) ∉ c.generateParameters := by
  refine ⟨(Request_calls env c w method urlPath body params).1,
    (Request_calls env c w method urlPath body params).2, ?_, rfl, ?_, ?_⟩
  · intro tok reqBody params1 h
    have h1 := congrArg (fun r => r.Header.head?) h
    simp [RapidClient.resourceRequest, RapidClient.tokenRequest] at h1
  · intro refreshToken
    refine ⟨Encode_generateParameters_ne_refresh c refreshToken, fun h => ?_⟩
    exact Encode_generateParameters_ne_refresh c refreshToken
      (congrArg (fun r => r.Body) h)
  · unfold RapidClient.generateParameters
    split <;> simp

/-- Witness of C5: the client holding an expired token with a refresh credential. -/
theorem Request_never_refreshes_witness :
    expiredClient.needsToken (mockEnv.Now (mockWorld []).net) = true ∧
      ((expiredClient.Request mockEnv (mockWorld []) "GET" "/widgets" none []).2.2 =
          mockWorld [] ∨
        (expiredClient.Request mockEnv (mockWorld []) "GET" "/widgets" none []).2.2.calls =
          (mockWorld []).calls ++ [expiredClient.tokenRequest expiredClient.generateParameters] ∨
        ∃ tok reqBody,
          (expiredClient.Request mockEnv (mockWorld []) "GET" "/widgets" none []).2.2.calls =
            (mockWorld []).calls ++
              [expiredClient.tokenRequest expiredClient.generateParameters,
               expiredClient.resourceRequest tok "GET" "/widgets" (none : Option String).isSome
                 reqBody []]) :=
  ⟨rfl, (Request_never_refreshes mockEnv expiredClient (mockWorld []) "GET" "/widgets"
    none []).2.1 rfl⟩

/-! ## Trimming of slashes -/

/-- Membership in the cutset `/` is being the slash. -/
theorem cutset_slash (ch : Char) : "/".data.contains ch = true ↔ ch = '/' := by
  show ['/'].contains ch = true ↔ ch = '/'
  simp

/-- A list trimmed on the right of the characters satisfying `p` does not end in one. -/
theorem getLast?_rdropWhile (p : Char → Bool) (l : List Char) (x : Char)
    (h : (l.rdropWhile p).getLast? = some x) : p x = false := by
  induction l using List.reverseRecOn with
  | nil => simp at h
  | append_singleton l y ih =>
    by_cases hy : p y = true
    · rw [List.rdropWhile_concat_pos _ _ _ hy] at h
      exact ih h
    · rw [List.rdropWhile_concat_neg _ _ _ hy] at h
      rw [List.getLast?_append, List.getLast?_singleton] at h
      have hxy : y = x := by simpa [Option.or] using h
      subst hxy
      simpa using hy

/-- A list is what trimming on the right leaves, followed by slashes only. -/
theorem rdropWhile_slash_append (l : List Char) :
    ∃ n, l = l.rdropWhile (fun ch => "/".data.contains ch) ++ List.replicate n '/' := by
  induction l using List.reverseRecOn with
  | nil => exact ⟨0, by simp⟩
  | append_singleton l y ih =>
    by_cases hy : "/".data.contains y = true
    · obtain ⟨n, hn⟩ := ih
      refine ⟨n + 1, ?_⟩
      rw [List.rdropWhile_concat_pos _ _ _ hy, List.replicate_succ', ← List.append_assoc, ← hn,
        (cutset_slash y).1 hy]
    · exact ⟨0, by rw [List.rdropWhile_concat_neg _ _ _ hy]; simp⟩

/-- A list is slashes only followed by what trimming on the left leaves. -/
theorem dropWhile_slash_append (l : List Char) :
    ∃ n, l = List.replicate n '/' ++ l.dropWhile (fun ch => "/".data.contains ch) := by
  induction l with
  | nil => exact ⟨0, by simp⟩
  | cons y l ih =>
    by_cases hy : "/".data.contains y = true
    · obtain ⟨n, hn⟩ := ih
      refine ⟨n + 1, ?_⟩
      rw [List.dropWhile_cons_of_pos hy, List.replicate_succ, List.cons_append, ← hn,
        (cutset_slash y).1 hy]
    · exact ⟨0, by rw [List.dropWhile_cons_of_neg hy]; simp⟩

/-- Trimming on the left is not changed by more slashes in front. -/
theorem dropWhile_slash_replicate (n : Nat) (l : List Char) :
    (List.replicate n '/' ++ l).dropWhile (fun ch => "/".data.contains ch) =
      l.dropWhile (fun ch => "/".data.contains ch) := by
  induction n with
  | zero => simp
  | succ n ih =>
    rw [List.replicate_succ, List.cons_append,
      List.dropWhile_cons_of_pos ((cutset_slash '/').2 rfl), ih]

/-- `strings.TrimRight(s, "/")` does not end in a slash, and `s` is it followed by slashes. -/
theorem TrimRight_slash (s : String) :
    (strings.TrimRight s "/").data.getLast? ≠ some '/' ∧
      ∃ n, s = strings.TrimRight s "/" ++ slashes n := by
  refine ⟨fun h => ?_, ?_⟩
  · have := getLast?_rdropWhile _ _ _ h
    rw [Bool.eq_false_iff] at this
    exact this ((cutset_slash '/').2 rfl)
  · obtain ⟨n, hn⟩ := rdropWhile_slash_append s.data
    refine ⟨n, ?_⟩
    apply String.ext
    rw [String.data_append]
    exact hn

/-- `strings.TrimLeft(s, "/")` does not start with a slash, and `s` is slashes followed by it. -/
theorem TrimLeft_slash (s : String) :
    (strings.TrimLeft s "/").data.head? ≠ some '/' ∧
      ∃ n, s = slashes n ++ strings.TrimLeft s "/" := by
  refine ⟨fun h => ?_, ?_⟩
  · have := List.head?_dropWhile_not (fun ch => "/".data.contains ch) s.data
    simp only [strings.TrimLeft] at h
    rw [h] at this
    simp only at this
    rw [Bool.eq_false_iff] at this
    exact this ((cutset_slash '/').2 rfl)
  · obtain ⟨n, hn⟩ := dropWhile_slash_append s.data
    refine ⟨n, ?_⟩
    apply String.ext
    rw [String.data_append]
    exact hn

/-! ## Construction of the client -/

/-- The endpoint a successful `NewRapidClient` stores is the input trimmed on the right. -/
theorem NewRapidClient_BaseURL (baseURL key secret userWebToken : String) (c : RapidClient)
    (hnew : NewRapidClient baseURL key secret userWebToken = .ok c) :
    c.BaseURL = strings.TrimRight baseURL "/" := by
  by_cases h : baseURL = "" ∨ key = "" ∨ secret = ""
  · simp only [NewRapidClient, if_pos h] at hnew
    cases hnew
  · simp only [NewRapidClient, if_neg h, Except.ok.injEq] at hnew
    subst hnew
    rfl

/-- C8: `NewRapidClient` fails if and only if the endpoint, the key or the secret is
empty. On success the stored endpoint is the input trimmed of its trailing slashes: it
does not end in a slash and the input is it followed by slashes only; key, secret and
user assertion are stored as given and the client holds no token. -/
theorem NewRapidClient_spec (baseURL key secret userWebToken : String) :
    ((∃ e, NewRapidClient baseURL key secret userWebToken = .error e) ↔
        (baseURL = "" ∨ key = "" ∨ secret = "")) ∧
      (∀ c, NewRapidClient baseURL key secret userWebToken = .ok c →
        c.BaseURL = strings.TrimRight baseURL "/" ∧
          c.BaseURL.data.getLast? ≠ some '/' ∧
          (∃ n, baseURL = c.BaseURL ++ slashes n) ∧
          c.Key = key ∧ c.Secret = secret ∧ c.UserWebToken = userWebToken ∧
          c.Token = none) := by
  by_cases h : baseURL = "" ∨ key = "" ∨ secret = ""
  · have hnew : NewRapidClient baseURL key secret userWebToken = .error .configuration := by
      simp only [NewRapidClient, if_pos h]
    rw [hnew]
    refine ⟨⟨fun _ => h, fun _ => ⟨_, rfl⟩⟩, fun c hc => ?_⟩
    cases hc
  · have hnew : NewRapidClient baseURL key secret userWebToken =
        .ok { BaseURL := strings.TrimRight baseURL "/", Key := key, Secret := secret,
              UserWebToken := userWebToken, HTTPClient := { Timeout := 600 * Second },
              Token := none } := by
      simp only [NewRapidClient, if_neg h]
    rw [hnew]
    refine ⟨⟨fun ⟨e, he⟩ => ?_, fun h1 => absurd h1 h⟩, fun c hc => ?_⟩
    · cases he
    · simp only [Except.ok.injEq] at hc
      subst hc
      exact ⟨rfl, (TrimRight_slash baseURL).1, (TrimRight_slash baseURL).2, rfl, rfl, rfl, rfl⟩

/-- Witness of C8: the endpoint `https://api.test/` with key `k` and secret `s` gives the
example client, whose endpoint has lost the trailing slash. -/
theorem NewRapidClient_spec_witness :
    NewRapidClient "https://api.test/" "k" "s" "" = .ok exampleClient ∧
      exampleClient.BaseURL = strings.TrimRight "https://api.test/" "/" ∧
      exampleClient.Key = "k" ∧ exampleClient.Token = none :=
  ⟨rfl,
    ((NewRapidClient_spec "https://api.test/" "k" "s" "").2 exampleClient rfl).1,
    ((NewRapidClient_spec "https://api.test/" "k" "s" "").2 exampleClient rfl).2.2.2.1,
    ((NewRapidClient_spec "https://api.test/" "k" "s" "").2 exampleClient rfl).2.2.2.2.2.2⟩

/-! ## The configuration invariant -/

/-- The token exchange keeps endpoint, key and secret. -/
theorem tokenExchange_sameConfig (env : Env W B J) (c : RapidClient) (w : World W)
    (params : url.Values) : c.sameConfig (c.tokenExchange env w params).2.1 := by
  rcases tokenExchange_outcome env c w params with ⟨_, _, hc, _⟩ | ⟨_, _, hc, _⟩
  · rw [hc]; exact ⟨rfl, rfl, rfl⟩
  · rw [hc]; exact ⟨rfl, rfl, rfl⟩

/-- `Request` keeps endpoint, key and secret. -/
theorem Request_sameConfig (env : Env W B J) (c : RapidClient) (w : World W)
    (method urlPath : String) (body : Option J) (params : url.Values) :
    c.sameConfig (c.Request env w method urlPath body params).2.1 := by
  rcases Request_client env c w method urlPath body params with hc | ⟨_, hc⟩
  · rw [hc]; exact ⟨rfl, rfl, rfl⟩
  · rw [hc]; exact ⟨rfl, rfl, rfl⟩

/-- Counterexample to C9 as stated: the endpoint `/` is not empty, so construction
succeeds, and the stored endpoint, trimmed of its trailing slash, is empty. -/
theorem NewRapidClient_slash_endpoint :
    NewRapidClient "/" "k" "s" "" =
      .ok { BaseURL := "", Key := "k", Secret := "s", UserWebToken := "",
            HTTPClient := { Timeout := 600 * Second }, Token := none } := by
  rfl

/-- C9, amended: a successfully constructed client has a non-empty key and secret, and
its stored endpoint is empty exactly when the input endpoint consisted of slashes only;
and no operation (`GenerateToken`, `RefreshToken`, `Request`, `Get`, `Post`, `Put`,
`Delete`), on any client in any world, changes endpoint, key or secret. -/
theorem configuration_invariant (baseURL key secret userWebToken : String) (c : RapidClient)
    (hnew : NewRapidClient baseURL key secret userWebToken = .ok c) :
    c.Key ≠ "" ∧ c.Secret ≠ "" ∧
      (c.BaseURL = "" ↔ ∀ ch ∈ baseURL.data, ch = '/') ∧
      (∀ (env : Env W B J) (d : RapidClient) (w : World W),
        d.sameConfig (d.GenerateToken env w).2.1 ∧
          d.sameConfig (d.RefreshToken env w).2.1 ∧
          (∀ (method urlPath : String) (body : Option J) (params : url.Values),
            d.sameConfig (d.Request env w method urlPath body params).2.1 ∧
              d.sameConfig (d.Get env w urlPath params).2.1 ∧
              d.sameConfig (d.Post env w urlPath body).2.1 ∧
              d.sameConfig (d.Put env w urlPath body).2.1 ∧
              d.sameConfig (d.Delete env w urlPath).2.1)) := by
  have hcfg : ¬(baseURL = "" ∨ key = "" ∨ secret = "") := by
    intro h
    simp only [NewRapidClient, if_pos h] at hnew
    cases hnew
  simp only [NewRapidClient, if_neg hcfg, Except.ok.injEq] at hnew
  subst hnew
  refine ⟨fun h => hcfg (Or.inr (Or.inl h)), fun h => hcfg (Or.inr (Or.inr h)), ?_, ?_⟩
  · show strings.TrimRight baseURL "/" = "" ↔ _
    constructor
    · intro h ch hch
      have h1 : baseURL.data.rdropWhile (fun ch => "/".data.contains ch) = [] :=
        congrArg String.data h
      exact (cutset_slash ch).1 (List.rdropWhile_eq_nil_iff.1 h1 ch hch)
    · intro h
      apply String.ext
      show baseURL.data.rdropWhile (fun ch => "/".data.contains ch) = []
      exact List.rdropWhile_eq_nil_iff.2 (fun ch hch => (cutset_slash ch).2 (h ch hch))
  · intro env d w
    refine ⟨?_, ?_, fun method urlPath body params => ⟨?_, ?_, ?_, ?_, ?_⟩⟩
    · rw [GenerateToken_eq_tokenExchange]
      exact tokenExchange_sameConfig env d w _
    · rcases RefreshToken_eq_tokenExchange env d w with ⟨_, heq⟩ | ⟨_, _, _, heq⟩
      · rw [heq]; exact tokenExchange_sameConfig env d w _
      · rw [heq]; exact tokenExchange_sameConfig env d w _
    · exact Request_sameConfig env d w method urlPath body params
    · exact Request_sameConfig env d w "GET" urlPath none params
    · exact Request_sameConfig env d w "POST" urlPath body []
    · exact Request_sameConfig env d w "PUT" urlPath body []
    · exact Request_sameConfig env d w "DELETE" urlPath none []

/-- Witness of C9: the example client, built from `https://api.test/`, `k` and `s`. -/
theorem configuration_invariant_witness :
    NewRapidClient "https://api.test/" "k" "s" "" = .ok exampleClient ∧
      exampleClient.Key ≠ "" ∧ exampleClient.Secret ≠ "" ∧
      exampleClient.sameConfig
        (exampleClient.GenerateToken mockEnv
          (mockWorld [.ok { StatusCode := 200, Body := "ok" }])).2.1 :=
  ⟨rfl,
    (configuration_invariant "https://api.test/" "k" "s" "" exampleClient rfl
      (W := Mock) (B := String) (J := String)).1,
    (configuration_invariant "https://api.test/" "k" "s" "" exampleClient rfl
      (W := Mock) (B := String) (J := String)).2.1,
    ((configuration_invariant "https://api.test/" "k" "s" "" exampleClient rfl).2.2.2
      mockEnv exampleClient (mockWorld [.ok { StatusCode := 200, Body := "ok" }])).1⟩

/-! ## The URL of the resource call -/

/-- Every call `Request` adds to the record is the token request on the grant-selection
parameters or a request to `fullURL`. -/
theorem Request_call_urls (env : Env W B J) (c : RapidClient) (w : World W)
    (method urlPath : String) (body : Option J) (params : url.Values) (r : http.Request)
    (hr : r ∈ (c.Request env w method urlPath body params).2.2.calls) :
    r ∈ w.calls ∨ r = c.tokenRequest c.generateParameters ∨
      r.URL = c.fullURL urlPath params := by
  cases hneed : c.needsToken (env.Now w.net) with
  | false =>
    rcases (Request_calls env c w method urlPath body params).1 hneed with
      hw | ⟨tok, reqBody, _, hcalls⟩
    · rw [hw] at hr; exact Or.inl hr
    · rw [hcalls] at hr
      rcases List.mem_append.1 hr with h | h
      · exact Or.inl h
      · rw [List.mem_singleton] at h
        exact Or.inr (Or.inr (by rw [h]; rfl))
  | true =>
    rcases (Request_calls env c w method urlPath body params).2 hneed with
      hw | hcalls | ⟨tok, reqBody, hcalls⟩
    · rw [hw] at hr; exact Or.inl hr
    · rw [hcalls] at hr
      rcases List.mem_append.1 hr with h | h
      · exact Or.inl h
      · rw [List.mem_singleton] at h
        exact Or.inr (Or.inl h)
    · rw [hcalls] at hr
      rcases List.mem_append.1 hr with h | h
      · exact Or.inl h
      · simp only [List.mem_cons, List.mem_singleton, List.not_mem_nil, or_false] at h
        rcases h with h | h
        · exact Or.inr (Or.inl h)
        · exact Or.inr (Or.inr (by rw [h]; rfl))

/-- C10: the URL `Request` builds is the endpoint, one slash and the path trimmed of all
its leading slashes, followed by `?` and the encoded query exactly when the parameter set
is not empty. The trimmed path does not start with a slash and the path is it preceded by
slashes only; more leading slashes on the path give the same URL; the endpoint of a
constructed client does not end in a slash; and every request `Request` hands to the
transport, the token request apart, goes to that URL. -/
theorem fullURL_spec (c : RapidClient) (urlPath : String) (params : url.Values) :
    (params = [] →
        c.fullURL urlPath params = c.BaseURL ++ "/" ++ strings.TrimLeft urlPath "/") ∧
      (params ≠ [] →
        c.fullURL urlPath params =
          c.BaseURL ++ "/" ++ strings.TrimLeft urlPath "/" ++ "?" ++ params.Encode) ∧
      (strings.TrimLeft urlPath "/").data.head? ≠ some '/' ∧
      (∃ n, urlPath = slashes n ++ strings.TrimLeft urlPath "/") ∧
      (∀ n, c.fullURL (slashes n ++ urlPath) params = c.fullURL urlPath params) ∧
      (∀ baseURL key secret userWebToken,
        NewRapidClient baseURL key secret userWebToken = .ok c →
        c.BaseURL.data.getLast? ≠ some '/') ∧
      (∀ (env : Env W B J) (w : World W) (method : String) (body : Option J)
        (r : http.Request),
        r ∈ (c.Request env w method urlPath body params).2.2.calls →
        r ∈ w.calls ∨ r = c.tokenRequest c.generateParameters ∨
          r.URL = c.fullURL urlPath params) := by
  refine ⟨fun h => ?_, fun h => ?_, (TrimLeft_slash urlPath).1, (TrimLeft_slash urlPath).2,
    fun n => ?_, fun baseURL key secret userWebToken hnew => ?_,
    fun env w method body r hr => Request_call_urls env c w method urlPath body params r hr⟩
  · subst h
    simp [RapidClient.fullURL]
  · have hlen : params.length > 0 := List.length_pos.2 h
    simp only [RapidClient.fullURL, if_pos hlen]
  · have htrim : strings.TrimLeft (slashes n ++ urlPath) "/" = strings.TrimLeft urlPath "/" := by
      apply String.ext
      simp only [strings.TrimLeft, String.data_append, slashes]
      exact dropWhile_slash_replicate n urlPath.data
    simp only [RapidClient.fullURL, htrim]
  · rw [NewRapidClient_BaseURL baseURL key secret userWebToken c hnew]
    exact (TrimRight_slash baseURL).1

/-- Witness of C10: the example client and the path `/widgets` without parameters. -/
theorem fullURL_spec_witness :
    exampleClient.fullURL "/widgets" [] =
        exampleClient.BaseURL ++ "/" ++ strings.TrimLeft "/widgets" "/" ∧
      exampleClient.fullURL "/widgets" [] = "https://api.test/widgets" ∧
      exampleClient.fullURL "///widgets" [("b", ["2"]), ("a", ["1 x"])] =
        "https://api.test/widgets?a=1+x&b=2" :=
  ⟨(fullURL_spec exampleClient "/widgets" [] (W := Mock) (B := String) (J := String)).1 rfl,
    rfl, rfl⟩

end gorapid
